import Mathlib

/- Verification of the export pipeline in src/altair/utils/headless.py.

   The embedding below translates `save_spec` (lines 79-121) into pure Lean
   functions.  External effects (the selenium import, the Chrome launch,
   tempfile.mkstemp, file writes, driver.get, driver.execute_script, the state
   of the in-browser global `window.image_render`, and the byte-level codecs
   base64.decodebytes / str.encode) are modelled by a `World` record saying
   whether each step succeeds and what the browser returns.  The observable
   state of one call (temp file existence, browser process, bytes written to
   the destination, and the ordered event trace) is the `St` record threaded
   through the stages, which mirror the nesting of the two try/finally blocks
   in the source. -/

/-- A destination for the rendered bytes: a filename (Python str) or an
    already-open file-like object. -/
inductive Dest where
  | path (s : String)
  | fileLike
deriving DecidableEq

/-- Python exceptions that a `save_spec` call can surface. -/
inductive Err where
  | notImplementedError
  | valueError
  | importError
  | webDriverError
  | osError
  | unboundLocalError
  | attributeError
  | indexError
deriving DecidableEq

/-- The options dict built at lines 92-96 and serialised into EMBED_CODE. -/
structure Opt where
  renderer : String
  mode : Option String
deriving DecidableEq

/-- Observable side effects of one `save_spec` call, in the order they occur. -/
inductive Event where
  | launchBrowser
  | createTmp
  | execEmbed (opt : Opt)
  | execConvert (format : String)
  | execExtract
  | removeTmp
  | closeBrowser
  | writeDest (openedMode : Option String)
deriving DecidableEq

/-- The environment a call runs in: success of each fallible external step,
    the contents of the browser global at extraction time, and the external
    codecs (kept abstract as functions; the claims are about data flow). -/
structure World where
  seleniumOk : Bool
  launchOk : Bool
  mkstempOk : Bool
  writeTmpOk : Bool
  navOk : Bool
  embedOk : Bool
  convertOk : Bool
  extractOk : Bool
  renderReady : Bool
  render : String
  writeDestOk : Bool
  b64decode : String → List Nat
  utf8 : String → List Nat

/-- External state touched by one call. -/
structure St where
  tmpExists : Bool
  browserRunning : Bool
  written : Option (List Nat)
  events : List Event
deriving DecidableEq

/-- The state before a call: no temp file, no browser, nothing written. -/
def st0 : St := ⟨false, false, none, []⟩

/-- Python str.split with a one-character separator, on the character list.
    Mirrors fp.split(sep): the result is never empty, and empty segments are
    kept. -/
def pySplit (sep : Char) : List Char → List (List Char)
  | [] => [[]]
  | c :: rest =>
    if c = sep then [] :: pySplit sep rest
    else
      match pySplit sep rest with
      | [] => [[c]]
      | t :: ts => (c :: t) :: ts

/-- Python negative index [-1] on the (always nonempty) result of a split. -/
def pyLast : List (List Char) → List Char
  | [] => []
  | [x] => x
  | _ :: x :: xs => pyLast (x :: xs)

/-- Lines 81-82: when `format` is None and fp is a str, infer the format as
    fp.split('.')[-1]; otherwise keep the explicit format. -/
def inferFormat (format : Option String) (fp : Dest) : Option String :=
  match format, fp with
  | none, Dest.path s => some ((pyLast (pySplit '.' s.toList)).asString)
  | f, _ => f

/-- Lines 103-110, the body of the inner try: write the HTML template to the
    temp file, driver.get the file URL, then run EMBED_CODE, CONVERT_CODE and
    EXTRACT_CODE.  The result is the Python value returned by the extraction
    script: None when window.image_render has not been populated yet. -/
def scriptsBody (w : World) (opt : Opt) (format : String) (st : St) :
    Except Err (Option String) × St :=
  if w.writeTmpOk then
    if w.navOk then
      if w.embedOk then
        if w.convertOk then
          if w.extractOk then
            (Except.ok (if w.renderReady then some w.render else none),
             { st with events := st.events ++
                 [Event.execEmbed opt, Event.execConvert format, Event.execExtract] })
          else
            (Except.error Err.webDriverError,
             { st with events := st.events ++
                 [Event.execEmbed opt, Event.execConvert format, Event.execExtract] })
        else
          (Except.error Err.webDriverError,
           { st with events := st.events ++
               [Event.execEmbed opt, Event.execConvert format] })
      else
        (Except.error Err.webDriverError,
         { st with events := st.events ++ [Event.execEmbed opt] })
    else (Except.error Err.webDriverError, st)
  else (Except.error Err.osError, st)

/-- Lines 102-112, the inner try/finally: fd, name = tempfile.mkstemp(...),
    then the script body, then `finally: os.remove(name)`.  When mkstemp itself
    raises, the finally clause reads the unbound local `name`, so the call
    degenerates to UnboundLocalError with no file ever created. -/
def tmpAndScripts (w : World) (opt : Opt) (format : String) (st : St) :
    Except Err (Option String) × St :=
  if w.mkstempOk then
    match scriptsBody w opt format
        { st with tmpExists := true, events := st.events ++ [Event.createTmp] } with
    | (res, stB) =>
      (res, { stB with tmpExists := false, events := stB.events ++ [Event.removeTmp] })
  else (Except.error Err.unboundLocalError, st)

/-- Lines 98-114, the outer try/finally: driver = webdriver.Chrome(...), the
    inner block, then `finally: driver.close()`.  When the launch raises, the
    finally clause reads the unbound local `driver`, so the call degenerates to
    UnboundLocalError with no browser process running. -/
def browserSession (w : World) (opt : Opt) (format : String) (st : St) :
    Except Err (Option String) × St :=
  if w.launchOk then
    match tmpAndScripts w opt format
        { st with browserRunning := true, events := st.events ++ [Event.launchBrowser] } with
    | (res, stB) =>
      (res, { stB with browserRunning := false, events := stB.events ++ [Event.closeBrowser] })
  else (Except.error Err.unboundLocalError, st)

/-- Modelled from the spec: `write_file_or_filename` is imported from
    src/altair/utils/core.py, which is not present under src/.  The spec calls
    it "a generic write bytes to file-or-stream helper" and requires "Write
    bytes to destination (opening the path in binary-write mode if a path was
    given)".  The recorded event says with which mode the destination was
    opened (none when the destination was an already-open sink). -/
def openedModeFor (fp : Dest) (mode : String) : Option String :=
  match fp with
  | Dest.path _ => some mode
  | Dest.fileLike => none

def write_file_or_filename (w : World) (fp : Dest) (bytes : List Nat) (mode : String)
    (st : St) : Except Err Unit × St :=
  if w.writeDestOk then
    (Except.ok (),
     { st with written := some bytes,
               events := st.events ++ [Event.writeDest (openedModeFor fp mode)] })
  else (Except.error Err.osError, st)

/-- Lines 116-121: decode the extracted value and write it out.  `render` is
    None when the browser global was never populated; Python then raises
    AttributeError at `.split` / `.encode`.  For PNG the code takes
    render.split(',')[1] (IndexError when there is no comma) and
    base64-decodes it; for SVG it UTF-8 encodes the string. -/
def decodeWrite (w : World) (format : String) (fp : Dest) (render : Option String)
    (st : St) : Except Err Unit × St :=
  match render with
  | none => (Except.error Err.attributeError, st)
  | some r =>
    if format = "png" then
      match (pySplit ',' r.toList).get? 1 with
      | none => (Except.error Err.indexError, st)
      | some payload => write_file_or_filename w fp (w.b64decode payload.asString) "wb" st
    else write_file_or_filename w fp (w.utf8 r) "wb" st

/-- The try/finally blocks followed by the decode-and-write tail. -/
def runSession (w : World) (opt : Opt) (format : String) (fp : Dest) (st : St) :
    Except Err Unit × St :=
  match browserSession w opt format st with
  | (Except.error e, stA) => (Except.error e, stA)
  | (Except.ok r, stA) => decodeWrite w format fp r stA

/-- Lines 79-121: save_spec(spec, fp, mode=None, format=None). -/
def save_spec (w : World) (spec : String) (fp : Dest) (mode : Option String)
    (format : Option String) : Except Err Unit × St :=
  match inferFormat format fp with
  | none => (Except.error Err.notImplementedError, st0)
  | some f =>
    if f = "png" ∨ f = "svg" then
      if w.seleniumOk then
        match mode with
        | none => runSession w ⟨if f = "png" then "canvas" else "svg", none⟩ f fp st0
        | some m =>
          if m = "vega" ∨ m = "vega-lite" then
            runSession w ⟨if f = "png" then "canvas" else "svg", some m⟩ f fp st0
          else (Except.error Err.valueError, st0)
      else (Except.error Err.importError, st0)
    else (Except.error Err.notImplementedError, st0)

instance : DecidableEq (Except Err Unit) := fun a b =>
  match a, b with
  | Except.ok (), Except.ok () => Decidable.isTrue rfl
  | Except.error e, Except.error f =>
    if h : e = f then Decidable.isTrue (by rw [h]) else Decidable.isFalse (by simp [h])
  | Except.ok (), Except.error _ => Decidable.isFalse (by simp)
  | Except.error _, Except.ok () => Decidable.isFalse (by simp)

/-- A fully healthy world used for concrete runs. -/
def w0 : World :=
  { seleniumOk := true, launchOk := true, mkstempOk := true, writeTmpOk := true,
    navOk := true, embedOk := true, convertOk := true, extractOk := true,
    renderReady := true, render := "data:image/png;base64,iVBOR",
    writeDestOk := true, b64decode := fun _ => [], utf8 := fun _ => [] }

/-- The healthy world except that selenium is not installed. -/
def wNoSel : World := { w0 with seleniumOk := false }

/-- The healthy world except that the in-browser async render has not finished
    by the time the extraction script runs. -/
def wNotReady : World := { w0 with renderReady := false }

/-- The four resource acquisition/release events of the claim about ordering. -/
def isResourceEv : Event → Bool
  | Event.launchBrowser => true
  | Event.createTmp => true
  | Event.removeTmp => true
  | Event.closeBrowser => true
  | _ => false

/-- Events a script stage may emit. -/
def scriptEv (opt : Opt) (f : String) (e : Event) : Prop :=
  e = Event.execEmbed opt ∨ e = Event.execConvert f ∨ e = Event.execExtract

/- Facts about the Python-style split used for extension inference. -/

lemma pySplit_ne_nil (sep : Char) (s : List Char) : pySplit sep s ≠ [] := by
  induction s with
  | nil => simp [pySplit]
  | cons c rest ih =>
    unfold pySplit
    split
    · simp
    · rcases h : pySplit sep rest with _ | ⟨t, ts⟩ <;> simp [h]

lemma pySplit_not_mem (sep : Char) (s : List Char) (h : sep ∉ s) : pySplit sep s = [s] := by
  induction s with
  | nil => rfl
  | cons c rest ih =>
    simp only [List.mem_cons, not_or] at h
    unfold pySplit
    rw [if_neg (fun e => h.1 e.symm), ih h.2]

lemma pySplit_two_le (sep : Char) (s : List Char) (h : sep ∈ s) :
    2 ≤ (pySplit sep s).length := by
  induction s with
  | nil => simp at h
  | cons c rest ih =>
    unfold pySplit
    by_cases hc : c = sep
    · rw [if_pos hc]
      have := pySplit_ne_nil sep rest
      have hlen : 0 < (pySplit sep rest).length := List.length_pos.mpr this
      simp only [List.length_cons]
      omega
    · rw [if_neg hc]
      have hrest : sep ∈ rest := by
        rcases List.mem_cons.mp h with h1 | h1
        · exact absurd h1.symm hc
        · exact h1
      rcases h2 : pySplit sep rest with _ | ⟨t, ts⟩
      · exact absurd h2 (pySplit_ne_nil sep rest)
      · have := ih hrest
        rw [h2] at this
        simpa using this

lemma pyLast_cons (x : List Char) (l : List (List Char)) (h : l ≠ []) :
    pyLast (x :: l) = pyLast l := by
  cases l with
  | nil => exact absurd rfl h
  | cons y ys => rfl

lemma pyLast_pySplit (sep : Char) (xs ys : List Char) (h : sep ∉ ys) :
    pyLast (pySplit sep (xs ++ sep :: ys)) = ys := by
  induction xs with
  | nil =>
    have h1 : pySplit sep (sep :: ys) = [] :: pySplit sep ys := by
      simp [pySplit]
    simp only [List.nil_append]
    rw [h1, pySplit_not_mem sep ys h]
    rfl
  | cons c rest ih =>
    by_cases hc : c = sep
    · subst hc
      have h1 : pySplit c (c :: (rest ++ c :: ys)) = [] :: pySplit c (rest ++ c :: ys) := by
        simp [pySplit]
      show pyLast (pySplit c (c :: (rest ++ c :: ys))) = ys
      rw [h1, pyLast_cons _ _ (pySplit_ne_nil c _)]
      exact ih
    · rcases h2 : pySplit sep (rest ++ sep :: ys) with _ | ⟨t, ts⟩
      · exact absurd h2 (pySplit_ne_nil sep _)
      · have hlen : 2 ≤ (pySplit sep (rest ++ sep :: ys)).length :=
          pySplit_two_le sep _ (by simp)
        rw [h2] at hlen
        have hts : ts ≠ [] := by
          intro e
          rw [e] at hlen
          simp at hlen
        have heq : pySplit sep ((c :: rest) ++ sep :: ys) = (c :: t) :: ts := by
          show pySplit sep (c :: (rest ++ sep :: ys)) = (c :: t) :: ts
          simp only [pySplit]
          rw [if_neg hc, h2]
        rw [heq, pyLast_cons _ _ hts]
        have := ih
        rw [h2, pyLast_cons _ _ hts] at this
        exact this

lemma pySplit_append (sep : Char) (xs ys : List Char) (h : sep ∉ xs) :
    pySplit sep (xs ++ sep :: ys) = xs :: pySplit sep ys := by
  induction xs with
  | nil =>
    simp only [List.nil_append]
    simp [pySplit]
  | cons c rest ih =>
    simp only [List.mem_cons, not_or] at h
    show pySplit sep (c :: (rest ++ sep :: ys)) = (c :: rest) :: pySplit sep ys
    simp only [pySplit]
    rw [if_neg (fun e => h.1 e.symm), ih h.2]

lemma toList_append (a b : String) : (a ++ b).toList = a.toList ++ b.toList := by
  cases a; cases b; rfl

lemma asString_toList (s : String) : s.toList.asString = s := rfl

/- Facts about format inference (lines 81-82). -/

lemma inferFormat_toList (s : String) (xs ys : List Char)
    (hs : s.toList = xs ++ '.' :: ys) (h : ('.' : Char) ∉ ys) :
    inferFormat none (Dest.path s) = some ys.asString := by
  show some ((pyLast (pySplit '.' s.toList)).asString) = some ys.asString
  rw [hs, pyLast_pySplit _ _ _ h]

lemma inferFormat_dotless (s : String) (h : ('.' : Char) ∉ s.toList) :
    inferFormat none (Dest.path s) = some s := by
  show some ((pyLast (pySplit '.' s.toList)).asString) = some s
  rw [pySplit_not_mem _ _ h]
  rfl

lemma inferFormat_ext (stem ext : String) (h : ('.' : Char) ∉ ext.toList) :
    inferFormat none (Dest.path (stem ++ "." ++ ext)) = some ext := by
  have hs : (stem ++ "." ++ ext).toList = stem.toList ++ '.' :: ext.toList := by
    rw [toList_append, toList_append]
    simp
  rw [inferFormat_toList _ _ _ hs h, asString_toList]

/- Characterisations of the stages: each stage only appends events of known
   shapes and leaves the other state fields in a known form. -/

lemma scriptsBody_delta (w : World) (opt : Opt) (f : String) (st : St) :
    ∃ L res, scriptsBody w opt f st = (res, { st with events := st.events ++ L }) ∧
      (∀ e ∈ L, scriptEv opt f e) ∧
      (∀ r, res = Except.ok r → r = if w.renderReady then some w.render else none) := by
  unfold scriptsBody
  by_cases h1 : w.writeTmpOk
  · by_cases h2 : w.navOk
    · by_cases h3 : w.embedOk
      · by_cases h4 : w.convertOk
        · by_cases h5 : w.extractOk
          · refine ⟨[Event.execEmbed opt, Event.execConvert f, Event.execExtract],
              Except.ok (if w.renderReady then some w.render else none),
              by simp [h1, h2, h3, h4, h5], by simp [scriptEv], ?_⟩
            intro r hr
            simpa using hr.symm
          · exact ⟨[Event.execEmbed opt, Event.execConvert f, Event.execExtract],
              Except.error Err.webDriverError,
              by simp [h1, h2, h3, h4, h5], by simp [scriptEv], by intro r hr; simp at hr⟩
        · exact ⟨[Event.execEmbed opt, Event.execConvert f],
            Except.error Err.webDriverError,
            by simp [h1, h2, h3, h4], by simp [scriptEv], by intro r hr; simp at hr⟩
      · exact ⟨[Event.execEmbed opt], Except.error Err.webDriverError,
          by simp [h1, h2, h3], by simp [scriptEv], by intro r hr; simp at hr⟩
    · exact ⟨[], Except.error Err.webDriverError,
        by simp [h1, h2], by simp, by intro r hr; simp at hr⟩
  · exact ⟨[], Except.error Err.osError,
      by simp [h1], by simp, by intro r hr; simp at hr⟩

lemma tmpAndScripts_delta (w : World) (opt : Opt) (f : String) (st : St) :
    tmpAndScripts w opt f st = (Except.error Err.unboundLocalError, st) ∨
    ∃ L res, tmpAndScripts w opt f st =
        (res, { st with tmpExists := false,
                        events := st.events ++
                          (Event.createTmp :: (L ++ [Event.removeTmp])) }) ∧
      (∀ e ∈ L, scriptEv opt f e) ∧
      (∀ r, res = Except.ok r → r = if w.renderReady then some w.render else none) := by
  by_cases h : w.mkstempOk
  · right
    obtain ⟨L, res, heq, hL, hok⟩ := scriptsBody_delta w opt f
      { st with tmpExists := true, events := st.events ++ [Event.createTmp] }
    refine ⟨L, res, ?_, hL, hok⟩
    unfold tmpAndScripts
    rw [if_pos h, heq]
    simp
  · left
    unfold tmpAndScripts
    rw [if_neg h]

lemma browserSession_delta (w : World) (opt : Opt) (f : String) (st : St) :
    browserSession w opt f st = (Except.error Err.unboundLocalError, st) ∨
    browserSession w opt f st =
      (Except.error Err.unboundLocalError,
       { st with browserRunning := false,
                 events := st.events ++ [Event.launchBrowser, Event.closeBrowser] }) ∨
    ∃ L res, browserSession w opt f st =
        (res, { st with tmpExists := false, browserRunning := false,
                        events := st.events ++
                          (Event.launchBrowser :: Event.createTmp ::
                            (L ++ [Event.removeTmp, Event.closeBrowser])) }) ∧
      (∀ e ∈ L, scriptEv opt f e) ∧
      (∀ r, res = Except.ok r → r = if w.renderReady then some w.render else none) := by
  by_cases h : w.launchOk
  · rcases tmpAndScripts_delta w opt f
      { st with browserRunning := true, events := st.events ++ [Event.launchBrowser] }
      with hA | ⟨L, res, heq, hL, hok⟩
    · right; left
      unfold browserSession
      rw [if_pos h, hA]
      simp
    · right; right
      refine ⟨L, res, ?_, hL, hok⟩
      unfold browserSession
      rw [if_pos h, heq]
      simp
  · left
    unfold browserSession
    rw [if_neg h]

/- Characterisations of the decode-and-write tail (lines 116-121). -/

lemma decodeWrite_none (w : World) (f : String) (fp : Dest) (st : St) :
    decodeWrite w f fp none st = (Except.error Err.attributeError, st) := rfl

lemma decodeWrite_png_some (w : World) (fp : Dest) (st : St) (s : String)
    (payload : List Char) (hg : (pySplit ',' s.toList).get? 1 = some payload) :
    decodeWrite w "png" fp (some s) st =
      write_file_or_filename w fp (w.b64decode payload.asString) "wb" st := by
  simp only [decodeWrite]
  rw [if_pos trivial, hg]

lemma decodeWrite_png_nocomma (w : World) (fp : Dest) (st : St) (s : String)
    (hg : (pySplit ',' s.toList).get? 1 = none) :
    decodeWrite w "png" fp (some s) st = (Except.error Err.indexError, st) := by
  simp only [decodeWrite]
  rw [if_pos trivial, hg]

lemma decodeWrite_not_png (w : World) (f : String) (fp : Dest) (st : St) (s : String)
    (hf : ¬f = "png") :
    decodeWrite w f fp (some s) st = write_file_or_filename w fp (w.utf8 s) "wb" st := by
  simp only [decodeWrite]
  rw [if_neg hf]

lemma decodeWrite_png_eq (w : World) (fp : Dest) (st : St) (pre post : String)
    (hpre : (',' : Char) ∉ pre.toList) (hpost : (',' : Char) ∉ post.toList) :
    decodeWrite w "png" fp (some (pre ++ "," ++ post)) st =
      write_file_or_filename w fp (w.b64decode post) "wb" st := by
  have hlist : (pre ++ "," ++ post).toList = pre.toList ++ ',' :: post.toList := by
    rw [toList_append, toList_append]
    simp
  have hidx : (pySplit ',' (pre ++ "," ++ post).toList).get? 1 = some post.toList := by
    rw [hlist, pySplit_append _ _ _ hpre, pySplit_not_mem _ _ hpost]
    rfl
  rw [decodeWrite_png_some w fp st _ _ hidx, asString_toList]

lemma write_file_cases (w : World) (fp : Dest) (b : List Nat) (m : String) (st : St) :
    (write_file_or_filename w fp b m st = (Except.error Err.osError, st)) ∨
    write_file_or_filename w fp b m st =
      (Except.ok (),
       { st with written := some b,
                 events := st.events ++ [Event.writeDest (openedModeFor fp m)] }) := by
  unfold write_file_or_filename
  by_cases hw : w.writeDestOk
  · right
    rw [if_pos hw]
  · left
    rw [if_neg hw]

lemma decodeWrite_delta (w : World) (f : String) (fp : Dest) (r : Option String) (st : St) :
    (∃ e, decodeWrite w f fp r st = (Except.error e, st)) ∨
    (∃ b, decodeWrite w f fp r st =
      (Except.ok (),
       { st with written := some b,
                 events := st.events ++ [Event.writeDest (openedModeFor fp "wb")] })) := by
  cases r with
  | none => exact Or.inl ⟨Err.attributeError, rfl⟩
  | some s =>
    by_cases hf : f = "png"
    · subst hf
      cases hg : (pySplit ',' s.toList).get? 1 with
      | none => exact Or.inl ⟨Err.indexError, decodeWrite_png_nocomma w fp st s hg⟩
      | some payload =>
        rcases write_file_cases w fp (w.b64decode payload.asString) "wb" st with hc | hc
        · exact Or.inl ⟨Err.osError, by rw [decodeWrite_png_some w fp st s payload hg, hc]⟩
        · exact Or.inr ⟨w.b64decode payload.asString,
            by rw [decodeWrite_png_some w fp st s payload hg, hc]⟩
    · rcases write_file_cases w fp (w.utf8 s) "wb" st with hc | hc
      · exact Or.inl ⟨Err.osError, by rw [decodeWrite_not_png w f fp st s hf, hc]⟩
      · exact Or.inr ⟨w.utf8 s, by rw [decodeWrite_not_png w f fp st s hf, hc]⟩

/- Reductions of the session wrapper. -/

lemma runSession_err (w : World) (o : Opt) (f : String) (fp : Dest) (st : St) (e : Err)
    (stA : St) (h : browserSession w o f st = (Except.error e, stA)) :
    runSession w o f fp st = (Except.error e, stA) := by
  unfold runSession
  rw [h]

lemma runSession_ok (w : World) (o : Opt) (f : String) (fp : Dest) (st : St)
    (r : Option String) (stA : St) (h : browserSession w o f st = (Except.ok r, stA)) :
    runSession w o f fp st = decodeWrite w f fp r stA := by
  unfold runSession
  rw [h]

/- Top-level case analysis of save_spec (lines 79-101): either it fails before
   any resource is touched (with the precise exception), or it runs the session
   with the options dict built at lines 92-96. -/

lemma save_spec_cases (w : World) (spec : String) (fp : Dest) (mode : Option String)
    (format : Option String) :
    (inferFormat format fp = none ∧
      save_spec w spec fp mode format = (Except.error Err.notImplementedError, st0)) ∨
    (∃ f, inferFormat format fp = some f ∧ ¬(f = "png" ∨ f = "svg") ∧
      save_spec w spec fp mode format = (Except.error Err.notImplementedError, st0)) ∨
    (∃ f, inferFormat format fp = some f ∧ (f = "png" ∨ f = "svg") ∧
      ¬w.seleniumOk = true ∧
      save_spec w spec fp mode format = (Except.error Err.importError, st0)) ∨
    (∃ f m, inferFormat format fp = some f ∧ (f = "png" ∨ f = "svg") ∧
      w.seleniumOk = true ∧ mode = some m ∧ ¬(m = "vega" ∨ m = "vega-lite") ∧
      save_spec w spec fp mode format = (Except.error Err.valueError, st0)) ∨
    (∃ f o, inferFormat format fp = some f ∧ (f = "png" ∨ f = "svg") ∧
      w.seleniumOk = true ∧
      o.renderer = (if f = "png" then "canvas" else "svg") ∧ o.mode = mode ∧
      (∀ m, mode = some m → m = "vega" ∨ m = "vega-lite") ∧
      save_spec w spec fp mode format = runSession w o f fp st0) := by
  unfold save_spec
  split
  · rename_i hf
    exact Or.inl ⟨hf, rfl⟩
  · rename_i f hf
    split
    · rename_i hfs
      split
      · rename_i hsel
        split
        · refine Or.inr (Or.inr (Or.inr (Or.inr
            ⟨f, ⟨if f = "png" then "canvas" else "svg", none⟩,
             hf, hfs, hsel, rfl, rfl, ?_, rfl⟩)))
          intro m h
          exact Option.noConfusion h
        · rename_i m
          split
          · rename_i hm
            refine Or.inr (Or.inr (Or.inr (Or.inr
              ⟨f, ⟨if f = "png" then "canvas" else "svg", some m⟩,
               hf, hfs, hsel, rfl, rfl, ?_, rfl⟩)))
            intro m2 h
            injection h with h2
            exact h2 ▸ hm
          · rename_i hm
            exact Or.inr (Or.inr (Or.inr (Or.inl ⟨f, m, hf, hfs, hsel, rfl, hm, rfl⟩)))
      · rename_i hsel
        exact Or.inr (Or.inr (Or.inl ⟨f, hf, hfs, hsel, rfl⟩))
    · rename_i hfs
      exact Or.inr (Or.inl ⟨f, hf, hfs, rfl⟩)

/-- The two-way form of the case analysis, enough for most invariants. -/
lemma save_spec_cases_simple (w : World) (spec : String) (fp : Dest) (mode : Option String)
    (format : Option String) :
    (∃ e, save_spec w spec fp mode format = (Except.error e, st0)) ∨
    (∃ f o, inferFormat format fp = some f ∧ (f = "png" ∨ f = "svg") ∧
      o.renderer = (if f = "png" then "canvas" else "svg") ∧ o.mode = mode ∧
      save_spec w spec fp mode format = runSession w o f fp st0) := by
  rcases save_spec_cases w spec fp mode format with
    ⟨_, h⟩ | ⟨f, _, _, h⟩ | ⟨f, _, _, _, h⟩ | ⟨f, m, _, _, _, _, _, h⟩ |
    ⟨f, o, hf, hfs, _, hr, hm, _, h⟩
  · exact Or.inl ⟨Err.notImplementedError, h⟩
  · exact Or.inl ⟨Err.notImplementedError, h⟩
  · exact Or.inl ⟨Err.importError, h⟩
  · exact Or.inl ⟨Err.valueError, h⟩
  · exact Or.inr ⟨f, o, hf, hfs, hr, hm, h⟩

/-- A resolved format other than png/svg always yields NotImplementedError at
    line 85, before any resource is touched. -/
lemma save_spec_badformat (w : World) (spec : String) (fp : Dest) (mode : Option String)
    (format : Option String) (f : String) (hf : inferFormat format fp = some f)
    (h2 : ¬f = "png") (h3 : ¬f = "svg") :
    save_spec w spec fp mode format = (Except.error Err.notImplementedError, st0) := by
  rcases save_spec_cases w spec fp mode format with
    ⟨hn, h⟩ | ⟨f2, hf2, _, h⟩ | ⟨f2, hf2, hfs, _, _⟩ | ⟨f2, m, hf2, hfs, _, _, _, _⟩ |
    ⟨f2, o, hf2, hfs, _, _, _, _, _⟩
  · rw [hf] at hn
    exact Option.noConfusion hn
  · exact h
  all_goals
    rw [hf] at hf2
    injection hf2 with h4
    subst h4
    rcases hfs with h5 | h5
    · exact absurd h5 h2
    · exact absurd h5 h3

/-- C1: on every execution path of save_spec — script-execution failure,
    launch failure, missing render result, decode failure, write failure
    included — the temporary HTML file does not exist after the call returns
    and the headless browser session is not left running (driver.close() in
    the outer finally is modelled as terminating the session; note that in
    this code a temp file can never exist before the browser is launched, the
    browser is always acquired first). -/
theorem save_spec_cleanup_invariant (w : World) (spec : String) (fp : Dest)
    (mode : Option String) (format : Option String) :
    (save_spec w spec fp mode format).2.tmpExists = false ∧
    (save_spec w spec fp mode format).2.browserRunning = false := by
  rcases save_spec_cases_simple w spec fp mode format with ⟨e, he⟩ |
    ⟨f, o, hf, hfs, hr, hm, heq⟩
  · rw [he]
    exact ⟨rfl, rfl⟩
  · rw [heq]
    rcases browserSession_delta w o f st0 with h1 | h1 | ⟨L, res, h1, hL, hok⟩
    · rw [runSession_err w o f fp st0 _ _ h1]
      exact ⟨rfl, rfl⟩
    · rw [runSession_err w o f fp st0 _ _ h1]
      exact ⟨rfl, rfl⟩
    · cases res with
      | error e =>
        rw [runSession_err w o f fp st0 _ _ h1]
        exact ⟨rfl, rfl⟩
      | ok r =>
        rw [runSession_ok w o f fp st0 _ _ h1]
        rcases decodeWrite_delta w f fp r _ with ⟨e, hd⟩ | ⟨b, hd⟩
        · rw [hd]
          exact ⟨rfl, rfl⟩
        · rw [hd]
          exact ⟨rfl, rfl⟩

/-- C2: with format unspecified and a string destination, a path ending in
    ".png" resolves to png and one ending in ".svg" to svg (lines 81-82); a
    path whose dot-suffix is anything else makes save_spec raise
    NotImplementedError at line 85, with the state untouched — no filesystem
    access, no browser. -/
theorem save_spec_format_resolution (w : World) (spec : String) (mode : Option String)
    (stem ext : String) :
    inferFormat none (Dest.path (stem ++ ".png")) = some "png" ∧
    inferFormat none (Dest.path (stem ++ ".svg")) = some "svg" ∧
    (('.' : Char) ∉ ext.toList → ¬ext = "png" → ¬ext = "svg" →
      save_spec w spec (Dest.path (stem ++ "." ++ ext)) mode none =
        (Except.error Err.notImplementedError, st0)) := by
  refine ⟨?_, ?_, ?_⟩
  · have hs : (stem ++ ".png").toList = stem.toList ++ '.' :: "png".toList := by
      rw [toList_append]
      rfl
    rw [inferFormat_toList _ _ _ hs (by decide)]
    rfl
  · have hs : (stem ++ ".svg").toList = stem.toList ++ '.' :: "svg".toList := by
      rw [toList_append]
      rfl
    rw [inferFormat_toList _ _ _ hs (by decide)]
    rfl
  · intro h1 h2 h3
    exact save_spec_badformat w spec _ mode none ext (inferFormat_ext stem ext h1) h2 h3

/-- C2 witness: the three parts at stem "chart" and extension "gif". -/
theorem save_spec_format_resolution_witness :
    inferFormat none (Dest.path ("chart" ++ ".png")) = some "png" ∧
    inferFormat none (Dest.path ("chart" ++ ".svg")) = some "svg" ∧
    save_spec w0 "spec" (Dest.path ("chart" ++ "." ++ "gif")) none none =
      (Except.error Err.notImplementedError, st0) := by
  obtain ⟨h1, h2, h3⟩ := save_spec_format_resolution w0 "spec" none "chart" "gif"
  exact ⟨h1, h2, h3 (by decide) (by decide) (by decide)⟩

/-- C3 counterexample: two calls whose supplied mode "bogus" is outside
    the recognized values but which do not raise ValueError: with an
    unsupported extension the format check at line 85 fires first
    (NotImplementedError), and with selenium unavailable the import at
    lines 87-90 fires first (ImportError). -/
theorem save_spec_invalid_mode_counterexample :
    (save_spec w0 "spec" (Dest.path "chart.gif") (some "bogus") none).1 =
        Except.error Err.notImplementedError ∧
    (save_spec wNoSel "spec" (Dest.path "chart.png") (some "bogus") none).1 =
        Except.error Err.importError ∧
    ¬(save_spec w0 "spec" (Dest.path "chart.gif") (some "bogus") none).1 =
        Except.error Err.valueError ∧
    ¬(save_spec wNoSel "spec" (Dest.path "chart.png") (some "bogus") none).1 =
        Except.error Err.valueError := by
  refine ⟨by decide, by decide, by decide, by decide⟩

/-- C3 amended: when the resolved format is png or svg and the selenium import
    succeeds, a supplied mode outside the two recognized values makes
    save_spec raise ValueError at line 95, before any browser session is
    acquired — the final state is the initial one: no browser process, no temp
    file, no events. -/
theorem save_spec_invalid_mode_amended (w : World) (spec : String) (fp : Dest)
    (format : Option String) (m : String)
    (hsel : w.seleniumOk = true)
    (hfmt : inferFormat format fp = some "png" ∨ inferFormat format fp = some "svg")
    (h1 : ¬m = "vega") (h2 : ¬m = "vega-lite") :
    save_spec w spec fp (some m) format = (Except.error Err.valueError, st0) := by
  have hex : ∃ f, inferFormat format fp = some f ∧ (f = "png" ∨ f = "svg") := by
    rcases hfmt with h | h
    exacts [⟨"png", h, Or.inl rfl⟩, ⟨"svg", h, Or.inr rfl⟩]
  obtain ⟨f, hf, hfs⟩ := hex
  rcases save_spec_cases w spec fp (some m) format with
    ⟨hn, _⟩ | ⟨f2, hf2, hfs2, _⟩ | ⟨f2, hf2, _, hsel2, _⟩ |
    ⟨f2, m2, _, _, _, hm2, _, h⟩ | ⟨f2, o, _, _, _, _, _, hval, _⟩
  · rw [hf] at hn
    exact Option.noConfusion hn
  · rw [hf] at hf2
    injection hf2 with h4
    exact absurd (h4 ▸ hfs) hfs2
  · exact absurd hsel hsel2
  · exact h
  · rcases hval m rfl with h5 | h5
    · exact absurd h5 h1
    · exact absurd h5 h2

/-- C3 amended witness: format png, selenium available, mode "bogus". -/
theorem save_spec_invalid_mode_amended_witness :
    save_spec w0 "spec" (Dest.path "chart.png") (some "bogus") none =
      (Except.error Err.valueError, st0) :=
  save_spec_invalid_mode_amended w0 "spec" (Dest.path "chart.png") none "bogus"
    rfl (Or.inl (by decide)) (by decide) (by decide)

/-- C4: when the in-browser async pipeline has not populated the extraction
    global by the time EXTRACT_CODE runs, save_spec does not poll and does not
    raise any timeout: it executes the extraction script exactly once, gets
    back None, and crashes with AttributeError at render.split (line 117) —
    after cleanup, with nothing written. -/
theorem save_spec_single_extraction_no_timeout :
    (save_spec wNotReady "spec" (Dest.path "chart.png") none none).1 =
        Except.error Err.attributeError ∧
    (save_spec wNotReady "spec" (Dest.path "chart.png") none none).2.events.count
        Event.execExtract = 1 ∧
    (save_spec wNotReady "spec" (Dest.path "chart.png") none none).2.written = none := by
  refine ⟨by decide, by decide, by decide⟩

lemma write_file_ok (w : World) (fp : Dest) (b : List Nat) (m : String) (st : St)
    (h : (write_file_or_filename w fp b m st).1 = Except.ok ()) :
    write_file_or_filename w fp b m st =
      (Except.ok (),
       { st with written := some b,
                 events := st.events ++ [Event.writeDest (openedModeFor fp m)] }) := by
  rcases write_file_cases w fp b m st with hc | hc
  · rw [hc] at h
    exact absurd h (by simp)
  · exact hc

lemma embed_of_scriptEv (o o2 : Opt) (f : String) (L : List Event)
    (hL : ∀ e ∈ L, scriptEv o2 f e) (h : Event.execEmbed o ∈ L) : o = o2 := by
  rcases hL _ h with h1 | h1 | h1
  · injection h1 with h2
  · exact Event.noConfusion h1
  · exact Event.noConfusion h1

/-- C5: whenever the embed script is executed, the options dict passed to it
    has renderer "canvas" for a png run and "svg" for an svg run, and its mode
    key is exactly the supplied mode argument (present iff non-None),
    mirroring lines 92-96. -/
theorem save_spec_embed_options (w : World) (spec : String) (fp : Dest)
    (mode : Option String) (format : Option String) (o : Opt)
    (h : Event.execEmbed o ∈ (save_spec w spec fp mode format).2.events) :
    (inferFormat format fp = some "png" → o.renderer = "canvas") ∧
    (inferFormat format fp = some "svg" → o.renderer = "svg") ∧
    o.mode = mode := by
  rcases save_spec_cases_simple w spec fp mode format with ⟨e, he⟩ |
    ⟨f, o2, hf, hfs, hr, hm, heq⟩
  · rw [he] at h
    simp [st0] at h
  · rw [heq] at h
    have key : o = o2 := by
      rcases browserSession_delta w o2 f st0 with h1 | h1 | ⟨L, res, h1, hL, hok2⟩
      · rw [runSession_err w o2 f fp st0 _ _ h1] at h
        simp [st0] at h
      · rw [runSession_err w o2 f fp st0 _ _ h1] at h
        simp [st0] at h
      · cases res with
        | error e =>
          rw [runSession_err w o2 f fp st0 _ _ h1] at h
          simp [st0] at h
          exact embed_of_scriptEv o o2 f L hL h
        | ok r =>
          rw [runSession_ok w o2 f fp st0 _ _ h1] at h
          rcases decodeWrite_delta w f fp r _ with ⟨e, hd⟩ | ⟨b, hd⟩ <;> rw [hd] at h <;>
            simp [st0] at h <;> exact embed_of_scriptEv o o2 f L hL h
    subst key
    refine ⟨?_, ?_, hm⟩
    · intro hp
      rw [hf] at hp
      injection hp with hfp
      rw [hr, hfp, if_pos rfl]
    · intro hp
      rw [hf] at hp
      injection hp with hfp
      rw [hr, hfp, if_neg (by decide : ¬("svg" : String) = "png")]

/-- C5 witness: the full-success png run passes renderer canvas, no mode key. -/
theorem save_spec_embed_options_witness :
    Event.execEmbed ⟨"canvas", none⟩ ∈
        (save_spec w0 "spec" (Dest.path "chart.png") none none).2.events ∧
    ((inferFormat none (Dest.path "chart.png") = some "png" →
        Opt.renderer ⟨"canvas", none⟩ = "canvas") ∧
     (inferFormat none (Dest.path "chart.png") = some "svg" →
        Opt.renderer ⟨"canvas", none⟩ = "svg") ∧
     Opt.mode ⟨"canvas", none⟩ = none) :=
  ⟨by decide, save_spec_embed_options w0 "spec" (Dest.path "chart.png") none none
      ⟨"canvas", none⟩ (by decide)⟩

/-- C6: on a successful export, the bytes written are, for png, the base64
    decoding of the data-URI portion after the comma (line 117), and for svg
    the UTF-8 encoding of the extracted string (line 120); when the
    destination was a path it was opened in binary-write mode ('wb'). -/
theorem save_spec_decode_write (w : World) (spec : String) (fp : Dest)
    (mode : Option String) (format : Option String) (pre post : String)
    (hok : (save_spec w spec fp mode format).1 = Except.ok ()) :
    (inferFormat format fp = some "png" → w.render = pre ++ "," ++ post →
      (',' : Char) ∉ pre.toList → (',' : Char) ∉ post.toList →
      (save_spec w spec fp mode format).2.written = some (w.b64decode post)) ∧
    (inferFormat format fp = some "svg" →
      (save_spec w spec fp mode format).2.written = some (w.utf8 w.render)) ∧
    (∀ p, fp = Dest.path p →
      Event.writeDest (some "wb") ∈ (save_spec w spec fp mode format).2.events) := by
  rcases save_spec_cases_simple w spec fp mode format with ⟨e, he⟩ |
    ⟨f, o, hf, hfs, hr, hm, heq⟩
  · rw [he] at hok
    exact absurd hok (by simp)
  · rw [heq] at hok ⊢
    rcases browserSession_delta w o f st0 with h1 | h1 | ⟨L, res, h1, hL, hok2⟩
    · rw [runSession_err w o f fp st0 _ _ h1] at hok
      exact absurd hok (by simp)
    · rw [runSession_err w o f fp st0 _ _ h1] at hok
      exact absurd hok (by simp)
    · cases res with
      | error e =>
        rw [runSession_err w o f fp st0 _ _ h1] at hok
        exact absurd hok (by simp)
      | ok r =>
        have hr2 : r = if w.renderReady then some w.render else none := hok2 r rfl
        rw [runSession_ok w o f fp st0 _ _ h1] at hok ⊢
        by_cases hready : w.renderReady
        · rw [hr2, if_pos hready] at hok ⊢
          refine ⟨?_, ?_, ?_⟩
          · intro hp hrend hpre hpost
            rw [hf] at hp
            injection hp with hfp
            subst hfp
            rw [hrend] at hok ⊢
            rw [decodeWrite_png_eq w fp _ pre post hpre hpost] at hok ⊢
            rw [write_file_ok w fp _ _ _ hok]
          · intro hp
            rw [hf] at hp
            injection hp with hfp
            have hnp : ¬f = "png" := by
              rw [hfp]
              decide
            rw [decodeWrite_not_png w f fp _ w.render hnp] at hok ⊢
            rw [write_file_ok w fp _ _ _ hok]
          · intro p hfp2
            subst hfp2
            rcases decodeWrite_delta w f (Dest.path p) (some w.render) _ with
              ⟨e, hd⟩ | ⟨b, hd⟩
            · rw [hd] at hok
              exact absurd hok (by simp)
            · rw [hd]
              simp [openedModeFor]
        · rw [hr2, if_neg hready, decodeWrite_none] at hok
          exact absurd hok (by simp)

/-- C6 witness: full-success png run; the data URI splits at its comma. -/
theorem save_spec_decode_write_witness :
    (save_spec w0 "spec" (Dest.path "chart.png") none none).1 = Except.ok () ∧
    ((inferFormat none (Dest.path "chart.png") = some "png" →
        w0.render = "data:image/png;base64" ++ "," ++ "iVBOR" →
        (',' : Char) ∉ "data:image/png;base64".toList →
        (',' : Char) ∉ "iVBOR".toList →
        (save_spec w0 "spec" (Dest.path "chart.png") none none).2.written =
          some (w0.b64decode "iVBOR")) ∧
     (inferFormat none (Dest.path "chart.png") = some "svg" →
        (save_spec w0 "spec" (Dest.path "chart.png") none none).2.written =
          some (w0.utf8 w0.render)) ∧
     (∀ p, Dest.path "chart.png" = Dest.path p →
        Event.writeDest (some "wb") ∈
          (save_spec w0 "spec" (Dest.path "chart.png") none none).2.events)) :=
  ⟨by decide, save_spec_decode_write w0 "spec" (Dest.path "chart.png") none none
      "data:image/png;base64" "iVBOR" (by decide)⟩

/-- C7: a call that raises never writes anything to the destination: the
    write at lines 118/121 happens only after a successful decode, so the
    written slot stays empty on every error path. -/
theorem save_spec_no_partial_write (w : World) (spec : String) (fp : Dest)
    (mode : Option String) (format : Option String) (e : Err)
    (h : (save_spec w spec fp mode format).1 = Except.error e) :
    (save_spec w spec fp mode format).2.written = none := by
  rcases save_spec_cases_simple w spec fp mode format with ⟨e2, he⟩ |
    ⟨f, o, hf, hfs, hr, hm, heq⟩
  · rw [he]
    rfl
  · rw [heq] at h ⊢
    rcases browserSession_delta w o f st0 with h1 | h1 | ⟨L, res, h1, hL, hok2⟩
    · rw [runSession_err w o f fp st0 _ _ h1]
      rfl
    · rw [runSession_err w o f fp st0 _ _ h1]
      rfl
    · cases res with
      | error e3 =>
        rw [runSession_err w o f fp st0 _ _ h1]
        rfl
      | ok r =>
        rw [runSession_ok w o f fp st0 _ _ h1] at h ⊢
        rcases decodeWrite_delta w f fp r _ with ⟨e3, hd⟩ | ⟨b, hd⟩
        · rw [hd]
          rfl
        · rw [hd] at h
          exact absurd h (by simp)

/-- C7 witness: the unsupported-extension failure writes nothing. -/
theorem save_spec_no_partial_write_witness :
    (save_spec w0 "spec" (Dest.path "chart.gif") none none).1 =
        Except.error Err.notImplementedError ∧
    (save_spec w0 "spec" (Dest.path "chart.gif") none none).2.written = none :=
  ⟨by decide, save_spec_no_partial_write w0 "spec" (Dest.path "chart.gif") none none
      Err.notImplementedError (by decide)⟩

lemma filter_scriptEv (o : Opt) (f : String) (L : List Event)
    (hL : ∀ e ∈ L, scriptEv o f e) : L.filter isResourceEv = [] := by
  rw [List.filter_eq_nil_iff]
  intro a ha
  rcases hL a ha with h | h | h <;> subst h <;> simp [isResourceEv]

/-- C8: whenever both resources are acquired, the resource events of the run
    are exactly launch-browser, create-temp-file, remove-temp-file,
    close-browser in that order — browser acquired first, released last, both
    releases present on every exit path; and whenever the browser is launched
    at all, it is closed. -/
theorem save_spec_resource_order (w : World) (spec : String) (fp : Dest)
    (mode : Option String) (format : Option String) :
    (Event.createTmp ∈ (save_spec w spec fp mode format).2.events →
      (save_spec w spec fp mode format).2.events.filter isResourceEv =
        [Event.launchBrowser, Event.createTmp, Event.removeTmp, Event.closeBrowser]) ∧
    (Event.launchBrowser ∈ (save_spec w spec fp mode format).2.events →
      Event.closeBrowser ∈ (save_spec w spec fp mode format).2.events) := by
  rcases save_spec_cases_simple w spec fp mode format with ⟨e, he⟩ |
    ⟨f, o, hf, hfs, hr, hm, heq⟩
  · rw [he]
    constructor
    · intro h
      simp [st0] at h
    · intro h
      simp [st0] at h
  · rw [heq]
    rcases browserSession_delta w o f st0 with h1 | h1 | ⟨L, res, h1, hL, hok2⟩
    · rw [runSession_err w o f fp st0 _ _ h1]
      constructor
      · intro h
        simp [st0] at h
      · intro h
        simp [st0] at h
    · rw [runSession_err w o f fp st0 _ _ h1]
      constructor
      · intro h
        simp [st0] at h
      · intro _
        simp [st0]
    · have hfL := filter_scriptEv o f L hL
      cases res with
      | error e =>
        rw [runSession_err w o f fp st0 _ _ h1]
        constructor
        · intro _
          simp [st0, List.filter_append, List.filter_cons, hfL, isResourceEv]
        · intro _
          simp [st0]
      | ok r =>
        rw [runSession_ok w o f fp st0 _ _ h1]
        rcases decodeWrite_delta w f fp r _ with ⟨e, hd⟩ | ⟨b, hd⟩ <;> rw [hd]
        · constructor
          · intro _
            simp [st0, List.filter_append, List.filter_cons, hfL, isResourceEv]
          · intro _
            simp [st0]
        · constructor
          · intro _
            simp [st0, List.filter_append, List.filter_cons, hfL, isResourceEv]
          · intro _
            simp [st0]

/-- C8 witness: the full-success png run acquires both resources and shows
    the acquisition/release bracketing. -/
theorem save_spec_resource_order_witness :
    (save_spec w0 "spec" (Dest.path "chart.png") none none).2.events.filter isResourceEv =
      [Event.launchBrowser, Event.createTmp, Event.removeTmp, Event.closeBrowser] ∧
    Event.closeBrowser ∈ (save_spec w0 "spec" (Dest.path "chart.png") none none).2.events :=
  ⟨(save_spec_resource_order w0 "spec" (Dest.path "chart.png") none none).1 (by decide),
   (save_spec_resource_order w0 "spec" (Dest.path "chart.png") none none).2 (by decide)⟩

/-- C9: with format unspecified the inferred format is the final
    dot-separated segment of the whole path string: a dotless path uses the
    entire string (so the bare filename "png" is accepted and the run
    succeeds), and matching is case-sensitive — "chart.PNG" is rejected with
    NotImplementedError before touching any resource. -/
theorem save_spec_suffix_inference :
    (∀ s : String, ('.' : Char) ∉ s.toList → inferFormat none (Dest.path s) = some s) ∧
    (save_spec w0 "spec" (Dest.path "png") none none).1 = Except.ok () ∧
    Event.execConvert "png" ∈ (save_spec w0 "spec" (Dest.path "png") none none).2.events ∧
    (∀ (w : World) (spec : String) (mode : Option String),
      save_spec w spec (Dest.path "chart.PNG") mode none =
        (Except.error Err.notImplementedError, st0)) := by
  refine ⟨inferFormat_dotless, by decide, by decide, ?_⟩
  intro w spec mode
  exact save_spec_badformat w spec _ mode none "PNG" (by decide) (by decide) (by decide)

/-- C9 witness: the dotless-path part applied at the bare filename "png". -/
theorem save_spec_suffix_inference_witness :
    (('.' : Char) ∉ "png".toList) ∧ inferFormat none (Dest.path "png") = some "png" :=
  ⟨by decide, save_spec_suffix_inference.1 "png" (by decide)⟩

/-- C10: a file-like destination with format unspecified leaves the format
    unresolved (None), so save_spec raises NotImplementedError at line 85
    before doing anything else — the final state is the initial one. -/
theorem save_spec_filelike_requires_format (w : World) (spec : String)
    (mode : Option String) :
    inferFormat none Dest.fileLike = none ∧
    save_spec w spec Dest.fileLike mode none =
      (Except.error Err.notImplementedError, st0) :=
  ⟨rfl, rfl⟩
